import Mathlib

/-!
Shallow embedding of the `wled_scanner` repository (src/scan.py and
src/bookmark.py) together with theorems settling the frozen claims about
its specification.

Conventions:
* Python dicts whose keys matter only for iteration are modelled as
  association lists, in insertion order.
* The sqlite database `places.sqlite` is modelled as explicit tables
  (lists of rows) plus rowid counters; `cursor.lastrowid` is the counter
  value at insertion time.
* A fallible sqlite statement is modelled by an optional failure-injection
  argument naming the statement that raises `sqlite3.Error`; rollback
  restores the state captured at `BEGIN TRANSACTION`.
-/

/-! ## Python value model (for scan.py `decode_properties`) -/

/-- Model of the Python values occurring in zeroconf property mappings:
byte strings, text strings, (possibly nested) lists, and other scalars
(represented by `int`). -/
inductive PyVal where
  | bytes : List Nat → PyVal
  | str : String → PyVal
  | list : List PyVal → PyVal
  | int : Int → PyVal

/-- One step of UTF-8 decoding with `errors='ignore'`: structural recursion on
fuel, consuming one to four bytes per emitted character and dropping bytes
that do not start a valid UTF-8 sequence. -/
def utf8_decode_go : Nat → List Nat → List Char
  | 0, _ => []
  | _ + 1, [] => []
  | fuel + 1, b0 :: rest =>
    if b0 < 0x80 then
      Char.ofNat b0 :: utf8_decode_go fuel rest
    else if 0xC2 ≤ b0 ∧ b0 ≤ 0xDF then
      match rest with
      | b1 :: rest2 =>
        if 0x80 ≤ b1 ∧ b1 ≤ 0xBF then
          Char.ofNat ((b0 - 0xC0) * 0x40 + (b1 - 0x80)) :: utf8_decode_go fuel rest2
        else
          utf8_decode_go fuel rest
      | [] => []
    else if 0xE0 ≤ b0 ∧ b0 ≤ 0xEF then
      match rest with
      | b1 :: b2 :: rest3 =>
        if ((if b0 = 0xE0 then 0xA0 else 0x80) ≤ b1 ∧
              b1 ≤ (if b0 = 0xED then 0x9F else 0xBF)) ∧
            (0x80 ≤ b2 ∧ b2 ≤ 0xBF) then
          Char.ofNat ((b0 - 0xE0) * 0x1000 + (b1 - 0x80) * 0x40 + (b2 - 0x80)) ::
            utf8_decode_go fuel rest3
        else
          utf8_decode_go fuel rest
      | _ => utf8_decode_go fuel rest
    else if 0xF0 ≤ b0 ∧ b0 ≤ 0xF4 then
      match rest with
      | b1 :: b2 :: b3 :: rest4 =>
        if ((if b0 = 0xF0 then 0x90 else 0x80) ≤ b1 ∧
              b1 ≤ (if b0 = 0xF4 then 0x8F else 0xBF)) ∧
            (0x80 ≤ b2 ∧ b2 ≤ 0xBF) ∧ (0x80 ≤ b3 ∧ b3 ≤ 0xBF) then
          Char.ofNat ((b0 - 0xF0) * 0x40000 + (b1 - 0x80) * 0x1000 +
              (b2 - 0x80) * 0x40 + (b3 - 0x80)) :: utf8_decode_go fuel rest4
        else
          utf8_decode_go fuel rest
      | _ => utf8_decode_go fuel rest
    else
      utf8_decode_go fuel rest

/-- Model of Python `bs.decode('utf-8', errors='ignore')`: total UTF-8
decoding where undecodable bytes are dropped instead of raising. -/
def utf8_decode_ignore (bs : List Nat) : String :=
  String.mk (utf8_decode_go bs.length bs)

/-- Model of the key transformation in `decode_properties`:
`key.decode('utf-8', errors='ignore')` when the key is bytes. -/
def decode_key (k : PyVal) : PyVal :=
  match k with
  | .bytes b => .str (utf8_decode_ignore b)
  | x => x

/-- Model of the list-comprehension item transformation in
`decode_properties`: decode an item if it is bytes, keep it otherwise. -/
def decode_item (v : PyVal) : PyVal :=
  match v with
  | .bytes b => .str (utf8_decode_ignore b)
  | x => x

/-- Model of the value transformation in `decode_properties`: bytes are
decoded; a list has each of its (top-level) items decoded when the item is
bytes; anything else is kept as-is. -/
def decode_value (v : PyVal) : PyVal :=
  match v with
  | .bytes b => .str (utf8_decode_ignore b)
  | .list items => .list (items.map decode_item)
  | x => x

/-- Model of scan.py `decode_properties`: builds a new mapping with each key
and value transformed, in iteration order. -/
def decode_properties (props : List (PyVal × PyVal)) : List (PyVal × PyVal) :=
  props.map (fun kv => (decode_key kv.1, decode_value kv.2))

/-- Whether a Python value is a byte string. -/
def is_bytes : PyVal → Bool
  | .bytes _ => true
  | _ => false

/-- Whether a Python value is a text string. -/
def is_str : PyVal → Bool
  | .str _ => true
  | _ => false

/-- A value has no byte strings at depth at most one: it is not itself bytes,
and if it is a list, none of its direct items is bytes. -/
def no_shallow_bytes (v : PyVal) : Bool :=
  match v with
  | .bytes _ => false
  | .list items => items.all (fun i => !(is_bytes i))
  | _ => true

/-! ## Discovery listener model (scan.py `MyListener`) -/

/-- Model of the optional result of `zeroconf.get_service_info(type, name)`:
raw addresses (each a list of bytes), a port, and raw properties. -/
structure ResolvedInfo where
  addresses : List (List Nat)
  port : Nat
  properties : List (PyVal × PyVal)

/-- Model of `'.'.join(map(str, info.addresses[0]))`. -/
def ipv4_of (info : ResolvedInfo) : String :=
  String.intercalate "." ((info.addresses.headD []).map (fun b => toString b))

/-- Model of the `service_info` dict built in `add_service`/`update_service`:
name, type, dotted-decimal address, port, and decoded properties. -/
structure ServiceInfo where
  name : String
  type : String
  address : String
  port : Nat
  properties : List (PyVal × PyVal)

/-- Builds the `service_info` dict from the event's type/name and the
resolved info. -/
def service_info_of (ty name : String) (info : ResolvedInfo) : ServiceInfo :=
  { name := name
    type := ty
    address := ipv4_of info
    port := info.port
    properties := decode_properties info.properties }

/-- Model of the `MyListener` state: the ordered `services` registry and the
`seen_services` set (a set of names, modelled as a list). -/
structure MyListener where
  services : List ServiceInfo
  seen_services : List String

/-- The initial listener state from `MyListener.__init__`. -/
def listener_init : MyListener :=
  { services := [], seen_services := [] }

/-- Model of `MyListener.add_service`: if resolution yields info and the name
has not been seen, append the record and mark the name seen; otherwise the
state is unchanged. -/
def add_service (l : MyListener) (ty name : String) (res : Option ResolvedInfo) :
    MyListener :=
  match res with
  | none => l
  | some info =>
    let si := service_info_of ty name info
    if l.seen_services.contains name then l
    else
      { l with
          services := l.services ++ [si]
          seen_services := name :: l.seen_services }

/-- Model of the `for svc in self.services: if svc['name'] == name:
svc.update(service_info); break` loop: replace the first record whose name
matches (the dicts have the same key set, so `dict.update` replaces every
field). -/
def update_first (ss : List ServiceInfo) (name : String) (si : ServiceInfo) :
    List ServiceInfo :=
  match ss with
  | [] => []
  | s :: rest => if s.name == name then si :: rest else s :: update_first rest name si

/-- Model of `MyListener.update_service`: if resolution yields info, update
the first record with a matching name in place; an unknown name or a failed
resolution leaves the state unchanged. -/
def update_service (l : MyListener) (ty name : String) (res : Option ResolvedInfo) :
    MyListener :=
  match res with
  | none => l
  | some info =>
    { l with services := update_first l.services name (service_info_of ty name info) }

/-- Model of `MyListener.remove_service`: drop every record with the name and
discard the name from the seen set (the event's type is unused, as in the
source). -/
def remove_service (l : MyListener) (_ty name : String) : MyListener :=
  { services := l.services.filter (fun s => !(s.name == name))
    seen_services := l.seen_services.filter (fun m => !(m == name)) }

/-- A zeroconf lifecycle event as delivered to the listener; `add` and
`update` carry the outcome of `zeroconf.get_service_info`. -/
inductive ZEvent where
  | add (ty name : String) (res : Option ResolvedInfo)
  | update (ty name : String) (res : Option ResolvedInfo)
  | remove (ty name : String)

/-- Dispatch one event to the corresponding listener handler. -/
def step_event (l : MyListener) : ZEvent → MyListener
  | .add ty name res => add_service l ty name res
  | .update ty name res => update_service l ty name res
  | .remove ty name => remove_service l ty name

/-- Run a sequence of events through the listener. -/
def run_events (l : MyListener) (evs : List ZEvent) : MyListener :=
  evs.foldl step_event l

/-- The registry's names, in insertion order. -/
def registry_names (l : MyListener) : List String :=
  l.services.map (fun s => s.name)

/-- One step of the spec-side presence fold: a successful add makes the name
present, a remove makes it absent, everything else leaves presence unchanged. -/
def present_step (b : Bool) (name : String) : ZEvent → Bool
  | .add _ n (some _) => b || n == name
  | .add _ _ none => b
  | .update _ _ _ => b
  | .remove _ n => b && !(n == name)

/-- A name is present at the end of an event sequence iff some successful add
event for it is not followed by a later remove event for it. -/
def present_at_end (evs : List ZEvent) (name : String) : Bool :=
  evs.foldl (fun b ev => present_step b name ev) false

/-- Whether an event carries the given service name. -/
def event_name : ZEvent → String
  | .add _ n _ => n
  | .update _ n _ => n
  | .remove _ n => n

/-- Whether an event is a remove event. -/
def is_remove : ZEvent → Bool
  | .remove _ _ => true
  | _ => false

/-- Whether an event is an update event. -/
def is_update : ZEvent → Bool
  | .update _ _ _ => true
  | _ => false

/-- The last non-remove event carrying the given name, if any. -/
def last_non_remove_for (evs : List ZEvent) (name : String) : Option ZEvent :=
  (evs.filter (fun e => event_name e == name && !(is_remove e))).getLast?

/-- The strengthened registry invariant: record names are pairwise distinct,
and the seen set contains exactly the names of the records. -/
def listener_inv (l : MyListener) : Prop :=
  (registry_names l).Nodup ∧
  (∀ n ∈ l.seen_services, n ∈ registry_names l) ∧
  (∀ n ∈ registry_names l, n ∈ l.seen_services)

/-- Pairwise distinctness of `(name, type)` identities, as a Boolean. -/
def distinct_identities : List ServiceInfo → Bool
  | [] => true
  | s :: rest =>
    rest.all (fun t => !(s.name == t.name && s.type == t.type)) &&
      distinct_identities rest

/-- The invariant exactly as the spec claims it: no two records share their
`(name, type)` identity, and the seen set equals the set of record names. -/
def invariant_claimed (l : MyListener) : Bool :=
  distinct_identities l.services &&
    l.seen_services.all (fun n => (registry_names l).contains n) &&
    (registry_names l).all (fun n => l.seen_services.contains n)

/-! ## Export error model (scan.py `perform_scan`, finally block) -/

/-- The outcome of the JSON-serialize-and-write sequence in the `finally`
block of `perform_scan`: success, a `TypeError` from `json.dumps`, or an
OS-level I/O error from `open`/`write`. -/
inductive ExportOutcome where
  | ok
  | typeError (msg : String)
  | ioError (msg : String)

/-- Model of the tail of `perform_scan`: the `try` block around
serialization and file writing catches only `TypeError` (reported,
non-fatal); an I/O error is not caught and propagates out of the function,
so only the non-I/O-error paths reach `return listener.services`. -/
def perform_scan_finalize (services : List ServiceInfo) (outcome : ExportOutcome) :
    Except String (List ServiceInfo) :=
  match outcome with
  | .ok => Except.ok services
  | .typeError _ => Except.ok services
  | .ioError m => Except.error m

/-! ## Bookmark store model (bookmark.py) -/

/-- A row of the `moz_places` URL table, as touched by the script. -/
structure PlaceRow where
  id : Nat
  url : String
  title : String
  rev_host : String
deriving DecidableEq

/-- A row of the `moz_bookmarks` table, as touched by the script
(`type` 1 = bookmark, 2 = folder). -/
structure BookmarkRow where
  id : Nat
  type : Nat
  fk : Option Nat
  parent : Nat
  position : Nat
  title : String
  dateAdded : Nat
  lastModified : Nat
deriving DecidableEq

/-- The slice of `places.sqlite` the script reads and writes: the URL table,
the bookmark table, the set of root folder ids from `moz_bookmarks_roots`,
and the next rowids the store would assign. -/
structure PlacesDB where
  moz_places : List PlaceRow
  moz_bookmarks : List BookmarkRow
  moz_bookmarks_roots : List Nat
  next_place_id : Nat
  next_bookmark_id : Nat
deriving DecidableEq

/-- Model of the lookup query in `get_parent_folder_id`: the first
`moz_bookmarks` row whose title matches and whose id appears in
`moz_bookmarks_roots` (the JOIN), as returned by `fetchone`. -/
def lookup_parent_folder (db : PlacesDB) (parent_title : String) : Option BookmarkRow :=
  db.moz_bookmarks.find?
    (fun b => b.title == parent_title && db.moz_bookmarks_roots.contains b.id)

/-- Model of `get_parent_folder_id`: return the id of the folder found by
the roots-joined lookup, or insert a new folder row (type 2, parent 1,
position 0, both timestamps `now`) and return its rowid. The insert does
not touch `moz_bookmarks_roots`. -/
def get_parent_folder_id (db : PlacesDB) (parent_title : String) (now : Nat) :
    Nat × PlacesDB :=
  match lookup_parent_folder db parent_title with
  | some parent => (parent.id, db)
  | none =>
    let row : BookmarkRow :=
      { id := db.next_bookmark_id
        type := 2
        fk := none
        parent := 1
        position := 0
        title := parent_title
        dateAdded := now
        lastModified := now }
    (db.next_bookmark_id,
      { db with
          moz_bookmarks := db.moz_bookmarks ++ [row]
          next_bookmark_id := db.next_bookmark_id + 1 })

/-- Model of `SELECT id FROM moz_places WHERE url = ?` with `fetchone`. -/
def find_place (db : PlacesDB) (url : String) : Option PlaceRow :=
  db.moz_places.find? (fun p => p.url == url)

/-- Model of `url.split("://")[-1]`, the value stored in `rev_host`. -/
def rev_host_of (url : String) : String :=
  (url.splitOn "://").getLastD ""

/-- Model of `SELECT MAX(position) FROM moz_bookmarks WHERE parent = ?`:
`none` plays SQL NULL when the parent has no children. -/
def max_position (bs : List BookmarkRow) (parent_id : Nat) : Option Nat :=
  ((bs.filter (fun b => b.parent == parent_id)).map (fun b => b.position)).max?

/-- Model of `position = (max_position + 1) if max_position is not None
else 0`. -/
def next_position (bs : List BookmarkRow) (parent_id : Nat) : Nat :=
  match max_position bs parent_id with
  | some m => m + 1
  | none => 0

/-- The id `add_bookmark` uses for the bookmark's `fk`: the id of the
existing `moz_places` row for the url if there is one, else the rowid the
fresh insert would get. -/
def resolved_place_id (db : PlacesDB) (url : String) : Nat :=
  match find_place db url with
  | some p => p.id
  | none => db.next_place_id

/-- The dict returned by a successful `add_bookmark`. -/
structure BookmarkDetails where
  id : Nat
  title : String
  url : String
  parent_id : Nat
  dateAdded : Nat
  lastModified : Nat
deriving DecidableEq

/-- The sqlite statements of `add_bookmark` that can raise
`sqlite3.Error`, for failure injection. -/
inductive SqlStep where
  | urlLookup
  | placeInsert
  | posQuery
  | bookmarkInsert
  | commit
deriving DecidableEq

/-- Model of `add_bookmark`: inside one transaction, look up or insert the
URL row, compute the position as one past the parent's maximum child
position (0 when the parent has no children), insert the bookmark row with
both timestamps `now`, and commit. `fail` injects a `sqlite3.Error` at the
named statement, provided that statement is actually executed; the
`except` clause then rolls the store back to the state captured at `BEGIN
TRANSACTION` and the function returns `none`. -/
def add_bookmark (db : PlacesDB) (title url : String) (parent_id now : Nat)
    (fail : Option SqlStep) : Option BookmarkDetails × PlacesDB :=
  if fail = some SqlStep.urlLookup then (none, db)
  else
    let place := find_place db url
    if place.isNone ∧ fail = some SqlStep.placeInsert then (none, db)
    else
      let pr : Nat × PlacesDB :=
        match place with
        | some p => (p.id, db)
        | none =>
          (db.next_place_id,
            { db with
                moz_places := db.moz_places ++
                  [{ id := db.next_place_id
                     url := url
                     title := title
                     rev_host := rev_host_of url }]
                next_place_id := db.next_place_id + 1 })
      let place_id := pr.1
      let db1 := pr.2
      if fail = some SqlStep.posQuery then (none, db)
      else
        let position := next_position db1.moz_bookmarks parent_id
        if fail = some SqlStep.bookmarkInsert then (none, db)
        else
          let row : BookmarkRow :=
            { id := db1.next_bookmark_id
              type := 1
              fk := some place_id
              parent := parent_id
              position := position
              title := title
              dateAdded := now
              lastModified := now }
          let db2 :=
            { db1 with
                moz_bookmarks := db1.moz_bookmarks ++ [row]
                next_bookmark_id := db1.next_bookmark_id + 1 }
          if fail = some SqlStep.commit then (none, db)
          else
            (some
              { id := db1.next_bookmark_id
                title := title
                url := url
                parent_id := parent_id
                dateAdded := now
                lastModified := now },
              db2)

/-! ## Backup model (bookmark.py `backup_places_db`) -/

/-- A file's observable state: its bytes and its modification timestamp
(`shutil.copy2` preserves both). -/
structure FileData where
  bytes : List Nat
  mtime : Nat
deriving DecidableEq

/-- A filesystem, modelled as an association list from path to file data. -/
abbrev FS : Type := List (String × FileData)

/-- Look up a path in the filesystem. -/
def fs_lookup (fs : FS) (p : String) : Option FileData :=
  (fs.find? (fun e => e.1 == p)).map (fun e => e.2)

/-- Model of `os.path.exists`. -/
def os_path_exists (fs : FS) (p : String) : Bool :=
  (fs_lookup fs p).isSome

/-- Model of `os.path.dirname` on the forward-slash paths the script uses:
everything before the last slash (empty when there is no slash). -/
def dirname (p : String) : String :=
  if p.toList.contains '/' then
    String.mk (((p.toList.reverse.dropWhile (fun c => !(c == '/'))).drop 1).reverse)
  else ""


/-- The conventional backup path: `os.path.join(os.path.dirname(path),
'places_backup.sqlite')`. -/
def backup_path_of (places_db_path : String) : String :=
  dirname places_db_path ++ "/places_backup.sqlite"

/-- Model of `shutil.copy2 src dst` for a destination known to be absent:
a byte-identical copy that also carries over the timestamp; raises when the
source does not exist. -/
def shutil_copy2 (fs : FS) (src dst : String) : Except String FS :=
  match fs_lookup fs src with
  | none => Except.error "FileNotFoundError"
  | some fd => Except.ok (fs ++ [(dst, fd)])

/-- Model of `backup_places_db`: if no file exists at the backup path, copy
the store there (a failing copy prints and exits, modelled as
`Except.error`); if a backup already exists, only a message is printed and
the filesystem is returned untouched. -/
def backup_places_db (fs : FS) (places_db_path : String) : Except String FS :=
  let backup_db := backup_path_of places_db_path
  if !(os_path_exists fs backup_db) then
    shutil_copy2 fs places_db_path backup_db
  else
    Except.ok fs

/-! ## Restore model (spec §4.4 `restore`) -/

/-- An entry of the AddedBookmarksLedger: the id and url of a bookmark row
previously created by the tool. -/
structure LedgerEntry where
  id : Nat
  url : String
deriving DecidableEq

/-- Modelled from the spec: processing of one ledger entry by the restore
operation, which src only declares (the `--restore` flag in `main` and the
`BOOKMARKS_RECORD_FILE` ledger path) but never implements. Per spec §4.4,
delete the corresponding bookmark row and only that row; an entry whose
bookmark row is no longer present is skipped without error; the removal
count is accumulated. -/
def restore_entry (st : Nat × PlacesDB) (e : LedgerEntry) : Nat × PlacesDB :=
  let remaining := st.2.moz_bookmarks.filter (fun b => !(b.id == e.id))
  if remaining.length = st.2.moz_bookmarks.length then st
  else
    (st.1 + (st.2.moz_bookmarks.length - remaining.length),
      { st.2 with moz_bookmarks := remaining })

/-- Modelled from the spec: `restore(ledger) -> count removed`. The ledger
is `none` when no ledger file exists, in which case restore is a no-op
(never destructive); otherwise every recorded entry is processed
best-effort and the number of rows removed is returned. -/
def restore (ledger : Option (List LedgerEntry)) (db : PlacesDB) : Nat × PlacesDB :=
  match ledger with
  | none => (0, db)
  | some entries => entries.foldl restore_entry (0, db)

/-! ## Concrete stores and services used by witnesses and counterexamples -/

/-- A minimal Firefox-like store: only the "menu" root (id 1) exists and is
registered in `moz_bookmarks_roots`. -/
def roots_db : PlacesDB :=
  { moz_places := []
    moz_bookmarks := [{ id := 1, type := 2, fk := none, parent := 0, position := 0,
                        title := "menu", dateAdded := 0, lastModified := 0 }]
    moz_bookmarks_roots := [1]
    next_place_id := 1
    next_bookmark_id := 2 }

/-- A store whose root folder (id 1) already has a child at position 5. -/
def busy_root_db : PlacesDB :=
  { moz_places := []
    moz_bookmarks := [{ id := 1, type := 2, fk := none, parent := 0, position := 0,
                        title := "menu", dateAdded := 0, lastModified := 0 },
                      { id := 2, type := 2, fk := none, parent := 1, position := 5,
                        title := "Other", dateAdded := 0, lastModified := 0 }]
    moz_bookmarks_roots := [1]
    next_place_id := 1
    next_bookmark_id := 3 }

/-- A discovered service as the scenario in the spec describes it. -/
def demo_service : ServiceInfo :=
  { name := "wled-a"
    type := "_wled._tcp.local."
    address := "192.168.1.10"
    port := 80
    properties := [] }

/-- A resolved-info payload with one IPv4 address and no properties. -/
def info_b : ResolvedInfo :=
  { addresses := [[10, 0, 0, 1]], port := 80, properties := [] }

/-- A listener state, NOT reachable from `listener_init`, that nevertheless
satisfies the invariant exactly as the spec claims it: two records share the
name "n" with distinct types, and the seen set is exactly {"n"}. -/
def bad_listener : MyListener :=
  { services := [{ name := "n", type := "A", address := "", port := 0, properties := [] },
                 { name := "n", type := "B", address := "", port := 0, properties := [] }]
    seen_services := ["n"] }

/-- A store that already holds a `moz_places` row for the demo url. -/
def url_db : PlacesDB :=
  { moz_places := [{ id := 5, url := "http://192.168.1.10:80", title := "t",
                     rev_host := "192.168.1.10:80" }]
    moz_bookmarks := [{ id := 1, type := 2, fk := none, parent := 0, position := 0,
                        title := "menu", dateAdded := 0, lastModified := 0 }]
    moz_bookmarks_roots := [1]
    next_place_id := 6
    next_bookmark_id := 2 }

/-- A filesystem holding only the store file. -/
def fs_no_backup : FS :=
  [("home/places.sqlite", { bytes := [1, 2, 3], mtime := 10 })]

/-- A filesystem holding the store file and an existing backup. -/
def fs_with_backup : FS :=
  [("home/places.sqlite", { bytes := [1, 2, 3], mtime := 10 }),
   ("home/places_backup.sqlite", { bytes := [9], mtime := 4 })]

/-- A ledger recording bookmark id 2 (present in `ledger_db`) and bookmark
id 9 (already gone). -/
def demo_ledger : List LedgerEntry :=
  [{ id := 2, url := "http://192.168.1.10:80" }, { id := 9, url := "http://x" }]

/-- A store holding one script-added bookmark (id 2) referencing the URL
row with id 5. -/
def ledger_db : PlacesDB :=
  { moz_places := [{ id := 5, url := "http://192.168.1.10:80", title := "t",
                     rev_host := "192.168.1.10:80" }]
    moz_bookmarks := [{ id := 1, type := 2, fk := none, parent := 0, position := 0,
                        title := "menu", dateAdded := 0, lastModified := 0 },
                      { id := 2, type := 1, fk := some 5, parent := 1, position := 0,
                        title := "wled-a", dateAdded := 0, lastModified := 0 }]
    moz_bookmarks_roots := [1]
    next_place_id := 6
    next_bookmark_id := 3 }

/-! ## Helper lemmas about `decode_properties` -/

/-- The list-item transformation never leaves a byte string behind. -/
theorem is_bytes_decode_item (v : PyVal) : is_bytes (decode_item v) = false := by
  cases v <;> rfl

/-- A key that was bytes or a string is a string after decoding. -/
theorem is_str_decode_key (k : PyVal) (h : (is_bytes k || is_str k) = true) :
    is_str (decode_key k) = true := by
  cases k <;> simp_all [is_bytes, is_str, decode_key]

/-- A decoded value has no byte strings at depth at most one. -/
theorem no_shallow_bytes_decode_value (v : PyVal) :
    no_shallow_bytes (decode_value v) = true := by
  cases v with
  | list items =>
    simp only [decode_value, no_shallow_bytes, List.all_eq_true, List.mem_map]
    rintro i ⟨j, _, rfl⟩
    simp [is_bytes_decode_item]
  | bytes b => rfl
  | str s => rfl
  | int i => rfl

/-- C10, counterexample: on the input `{b'k': [[b'v']]}` the decoder leaves
the byte string `b'v'` inside the nested list undecoded, refuting the claim
that every byte sequence, including those inside nested lists, is decoded. -/
theorem decode_properties_nested_cex :
    decode_properties [(PyVal.bytes [107], PyVal.list [PyVal.list [PyVal.bytes [118]]])] =
      [(PyVal.str "k", PyVal.list [PyVal.list [PyVal.bytes [118]]])] ∧
    no_shallow_bytes (PyVal.list [PyVal.bytes [118]]) = false :=
  ⟨rfl, rfl⟩

/-- C10, amended: `decode_properties` is total and pure, and on any mapping
whose keys are byte sequences or strings it yields a mapping whose keys are
all strings and whose values contain no byte sequence at depth at most one
(values and direct items of list values are decoded); bytes are decoded as
UTF-8 with undecodable bytes dropped (e.g. the invalid byte 255 inside
`b'h\xffi'` is dropped). Byte sequences nested deeper than one list level
are not decoded. -/
theorem decode_properties_shallow :
    (∀ props : List (PyVal × PyVal),
        props.all (fun kv => is_bytes kv.1 || is_str kv.1) = true →
        (decode_properties props).all
          (fun kv => is_str kv.1 && no_shallow_bytes kv.2) = true) ∧
    utf8_decode_ignore [104, 255, 105] = "hi" := by
  constructor
  · intro props h
    simp only [List.all_eq_true] at h
    simp only [decode_properties, List.all_eq_true, List.mem_map]
    rintro kv ⟨ab, hab, rfl⟩
    simp [is_str_decode_key ab.1 (h ab hab), no_shallow_bytes_decode_value]
  · rfl

/-- Witness for the amended C10 theorem at the concrete mapping
`{b'k': b'v'}`. -/
theorem decode_properties_shallow_witness :
    ([(PyVal.bytes [107], PyVal.bytes [118])].all
        (fun kv => is_bytes kv.1 || is_str kv.1) = true) ∧
    (decode_properties [(PyVal.bytes [107], PyVal.bytes [118])]).all
        (fun kv => is_str kv.1 && no_shallow_bytes kv.2) = true :=
  ⟨rfl, decode_properties_shallow.1 _ rfl⟩

/-! ## Theorems about the export error path (perform_scan) -/

/-- C6, counterexample: an I/O error while writing the export file is not
caught by the `except TypeError` clause of `perform_scan`, so the call
propagates the error instead of returning the in-memory snapshot. -/
theorem perform_scan_ioerror_cex :
    perform_scan_finalize [demo_service] (ExportOutcome.ioError "OSError") =
      Except.error "OSError" ∧
    (Except.error "OSError" : Except String (List ServiceInfo)) ≠
      Except.ok [demo_service] :=
  ⟨rfl, fun h => Except.noConfusion h⟩

/-- C6, amended: a serialization failure (`TypeError` from `json.dumps`) is
reported but non-fatal — `perform_scan` still returns the in-memory
snapshot, as it does on success — while an I/O error from opening or
writing the export file is not caught and propagates out of the call. -/
theorem perform_scan_export_nonfatal :
    (∀ (services : List ServiceInfo) (msg : String),
        perform_scan_finalize services (ExportOutcome.typeError msg) =
          Except.ok services) ∧
    (∀ services : List ServiceInfo,
        perform_scan_finalize services ExportOutcome.ok = Except.ok services) ∧
    (∀ (services : List ServiceInfo) (msg : String),
        perform_scan_finalize services (ExportOutcome.ioError msg) =
          Except.error msg) :=
  ⟨fun _ _ => rfl, fun _ => rfl, fun _ _ => rfl⟩

/-! ## Theorems about `get_parent_folder_id` -/

/-- C2: evaluated at a store holding only the built-in "menu" root, two
calls of `get_parent_folder_id` with the title "LED Strips" return the
distinct ids 2 and then 3 and insert two folder rows: the lookup joins
`moz_bookmarks_roots`, which the insert never updates, so the second call
cannot find the folder the first call created. -/
theorem get_parent_folder_id_duplicates :
    (get_parent_folder_id roots_db "LED Strips" 100).1 = 2 ∧
    (get_parent_folder_id
        (get_parent_folder_id roots_db "LED Strips" 100).2 "LED Strips" 200).1 = 3 ∧
    (get_parent_folder_id
        (get_parent_folder_id roots_db "LED Strips" 100).2 "LED Strips"
        200).2.moz_bookmarks.length = roots_db.moz_bookmarks.length + 2 := by
  decide

/-- C7, counterexample: on a store whose root folder already has a child at
position 5, the newly created folder row is inserted with position 0, not
at the end of the root's children (which would be position 6). -/
theorem folder_position_cex :
    (get_parent_folder_id busy_root_db "LED Strips" 77).2.moz_bookmarks.getLast? =
      some { id := 3, type := 2, fk := none, parent := 1, position := 0,
             title := "LED Strips", dateAdded := 77, lastModified := 77 } ∧
    next_position busy_root_db.moz_bookmarks 1 = 6 ∧ (0 : Nat) ≠ 6 := by
  decide

/-- C7, amended: when the roots-joined lookup finds no folder with the given
title, `get_parent_folder_id` appends a folder row with parent the
well-known root folder id 1, position always 0 (regardless of the root's
existing children), and `dateAdded` and `lastModified` both set to the
current time, returning the new row's id; the URL table is untouched. -/
theorem folder_creation_fields (db : PlacesDB) (parent_title : String) (now : Nat)
    (h : lookup_parent_folder db parent_title = none) :
    (get_parent_folder_id db parent_title now).1 = db.next_bookmark_id ∧
    (get_parent_folder_id db parent_title now).2.moz_bookmarks =
      db.moz_bookmarks ++
        [{ id := db.next_bookmark_id, type := 2, fk := none, parent := 1, position := 0,
           title := parent_title, dateAdded := now, lastModified := now }] ∧
    (get_parent_folder_id db parent_title now).2.moz_places = db.moz_places := by
  simp [get_parent_folder_id, h]

/-- Witness for the amended C7 theorem at the minimal root-only store. -/
theorem folder_creation_fields_witness :
    lookup_parent_folder roots_db "LED Strips" = none ∧
    (get_parent_folder_id roots_db "LED Strips" 100).1 = roots_db.next_bookmark_id :=
  ⟨by decide, (folder_creation_fields roots_db "LED Strips" 100 (by decide)).1⟩

/-! ## Helper lemmas about the listener -/

/-- Updating the first matching record with a record carrying the same name
leaves the list of record names unchanged. -/
theorem update_first_map_name (ss : List ServiceInfo) (name : String)
    (si : ServiceInfo) (h : si.name = name) :
    (update_first ss name si).map (fun s => s.name) = ss.map (fun s => s.name) := by
  induction ss with
  | nil => rfl
  | cons s rest ih =>
    by_cases hs : s.name = name
    · simp [update_first, hs, h]
    · simp [update_first, hs, ih]

/-- Updating the first matching record never changes the registry's length. -/
theorem update_first_length (ss : List ServiceInfo) (name : String)
    (si : ServiceInfo) :
    (update_first ss name si).length = ss.length := by
  induction ss with
  | nil => rfl
  | cons s rest ih =>
    by_cases hs : s.name = name <;> simp [update_first, hs, ih]

/-- Filtering records by name commutes with taking names. -/
theorem registry_names_filter (ss : List ServiceInfo) (name : String) :
    (ss.filter (fun s => !(s.name == name))).map (fun s => s.name) =
      (ss.map (fun s => s.name)).filter (fun m => !(m == name)) := by
  induction ss with
  | nil => rfl
  | cons s rest ih =>
    by_cases hs : s.name = name <;> simp [List.filter_cons, hs, ih]

/-- Every handler preserves the strengthened registry invariant. -/
theorem listener_inv_step (l : MyListener) (ev : ZEvent) (h : listener_inv l) :
    listener_inv (step_event l ev) := by
  obtain ⟨hnd, hseen, hnames⟩ := h
  simp only [registry_names] at hnd hseen hnames
  cases ev with
  | add ty n res =>
    cases res with
    | none => exact ⟨hnd, hseen, hnames⟩
    | some info =>
      by_cases hc : l.seen_services.contains n
      · simp only [step_event, add_service, hc, if_pos]
        exact ⟨hnd, hseen, hnames⟩
      · have hcm : n ∉ l.seen_services := by simpa using hc
        have hn : n ∉ l.services.map (fun s => s.name) :=
          fun hmem => hcm (hnames n hmem)
        simp only [step_event, add_service, hc, Bool.false_eq_true, if_neg,
          not_false_eq_true]
        refine ⟨?_, ?_, ?_⟩
        · simp only [registry_names, List.map_append, service_info_of,
            List.map_cons, List.map_nil]
          rw [List.nodup_append]
          exact ⟨hnd, List.nodup_singleton _, by simpa using hn⟩
        · intro m hm
          rcases List.mem_cons.mp hm with rfl | hm
          · simp [registry_names, service_info_of]
          · simp only [registry_names, List.map_append]
            exact List.mem_append_left _ (hseen m hm)
        · intro m hm
          simp only [registry_names, List.map_append, service_info_of,
            List.map_cons, List.map_nil, List.mem_append,
            List.mem_singleton] at hm
          rcases hm with hm | rfl
          · exact List.mem_cons_of_mem _ (hnames m hm)
          · exact List.mem_cons_self _ _
  | update ty n res =>
    cases res with
    | none => exact ⟨hnd, hseen, hnames⟩
    | some info =>
      have heq : (update_first l.services n (service_info_of ty n info)).map
          (fun s => s.name) = l.services.map (fun s => s.name) :=
        update_first_map_name l.services n (service_info_of ty n info) rfl
      refine ⟨?_, ?_, ?_⟩
      · simp only [registry_names, step_event, update_service, heq]
        exact hnd
      · intro m hm
        simp only [registry_names, step_event, update_service, heq]
        exact hseen m hm
      · intro m hm
        simp only [registry_names, step_event, update_service, heq] at hm
        exact hnames m hm
  | remove ty n =>
    refine ⟨?_, ?_, ?_⟩
    · simp only [step_event, remove_service, registry_names]
      rw [registry_names_filter]
      exact hnd.filter _
    · intro m hm
      simp only [step_event, remove_service, List.mem_filter] at hm
      simp only [step_event, remove_service, registry_names]
      rw [registry_names_filter, List.mem_filter]
      exact ⟨hseen m hm.1, hm.2⟩
    · intro m hm
      simp only [step_event, remove_service, registry_names] at hm
      rw [registry_names_filter, List.mem_filter] at hm
      simp only [step_event, remove_service, List.mem_filter]
      exact ⟨hnames m hm.1, hm.2⟩

/-- One handler call changes membership of a name in the registry exactly as
the spec-side presence fold `present_step` predicts. -/
theorem mem_step_bool (l : MyListener) (ev : ZEvent) (name : String)
    (h : listener_inv l) :
    decide (name ∈ registry_names (step_event l ev)) =
      present_step (decide (name ∈ registry_names l)) name ev := by
  obtain ⟨hnd, hseen, hnames⟩ := h
  rw [Bool.eq_iff_iff]
  cases ev with
  | add ty n res =>
    cases res with
    | none => simp [present_step, step_event, add_service]
    | some info =>
      by_cases hc : l.seen_services.contains n
      · have hmemn : n ∈ registry_names l := hseen n (by simpa using hc)
        simp only [step_event, add_service, hc, if_pos, present_step,
          decide_eq_true_eq, Bool.or_eq_true, beq_iff_eq]
        constructor
        · intro hm
          exact Or.inl (by simpa using hm)
        · rintro (hm | rfl)
          · simpa using hm
          · exact hmemn
      · simp only [step_event, add_service, hc, Bool.false_eq_true, if_neg,
          not_false_eq_true, present_step, registry_names, List.map_append,
          service_info_of, List.map_cons, List.map_nil, List.mem_append,
          List.mem_singleton, decide_eq_true_eq, Bool.or_eq_true, beq_iff_eq]
        constructor
        · rintro (hm | rfl)
          · exact Or.inl hm
          · exact Or.inr rfl
        · rintro (hm | rfl)
          · exact Or.inl hm
          · exact Or.inr rfl
  | update ty n res =>
    cases res with
    | none => simp [present_step, step_event, update_service]
    | some info =>
      have heq : (update_first l.services n (service_info_of ty n info)).map
          (fun s => s.name) = l.services.map (fun s => s.name) :=
        update_first_map_name l.services n (service_info_of ty n info) rfl
      simp [present_step, step_event, update_service, registry_names, heq]
  | remove ty n =>
    simp only [step_event, remove_service, registry_names, present_step,
      Bool.and_eq_true, Bool.not_eq_true', beq_eq_false_iff_ne,
      decide_eq_true_eq, ne_eq]
    rw [registry_names_filter, List.mem_filter]
    simp only [Bool.not_eq_true', beq_eq_false_iff_ne, ne_eq, registry_names]
    constructor
    · rintro ⟨hm, hne⟩
      exact ⟨hm, fun hrfl => hne hrfl.symm⟩
    · rintro ⟨hm, hne⟩
      exact ⟨hm, fun hrfl => hne hrfl.symm⟩

/-- Running any event sequence preserves the strengthened invariant. -/
theorem listener_inv_run (evs : List ZEvent) :
    ∀ l : MyListener, listener_inv l → listener_inv (run_events l evs) := by
  induction evs with
  | nil => intro l h; exact h
  | cons ev rest ih =>
    intro l h
    exact ih (step_event l ev) (listener_inv_step l ev h)

/-- Registry membership after a run is the presence fold started from the
initial membership value. -/
theorem run_events_mem_names (evs : List ZEvent) :
    ∀ (l : MyListener) (name : String), listener_inv l →
      (name ∈ registry_names (run_events l evs) ↔
        evs.foldl (fun b ev => present_step b name ev)
          (decide (name ∈ registry_names l)) = true) := by
  induction evs with
  | nil =>
    intro l name _
    simp [run_events]
  | cons ev rest ih =>
    intro l name h
    have h2 := ih (step_event l ev) name (listener_inv_step l ev h)
    simp only [run_events, List.foldl_cons] at h2 ⊢
    rw [h2, mem_step_bool l ev name h]

/-- The empty listener satisfies the strengthened invariant. -/
theorem listener_inv_init : listener_inv listener_init := by
  refine ⟨?_, ?_, ?_⟩ <;> simp [listener_init, registry_names]

/-- C5, counterexample: for the one-event sequence consisting of a single
update event for the never-seen identity ("n", "_wled._tcp.local.") with a
successful resolution, the identity's last non-remove event exists and is
an update (hence "add-or-update"), yet the final registry is empty — it does
not contain that identity, refuting the claimed characterization of the
final registry. -/
theorem registry_update_only_cex :
    (last_non_remove_for
        [ZEvent.update "_wled._tcp.local." "n" (some info_b)] "n").any is_update = true ∧
    run_events listener_init
        [ZEvent.update "_wled._tcp.local." "n" (some info_b)] = listener_init ∧
    registry_names (run_events listener_init
        [ZEvent.update "_wled._tcp.local." "n" (some info_b)]) = [] :=
  ⟨rfl, rfl, rfl⟩

/-- C5, amended: starting from the empty listener, for every finite event
sequence the final registry contains exactly the names with a successful
add event (one whose resolution yields info) not followed by a later remove
event for that name, with no duplicate names (membership is keyed by name
alone; the event type plays no role); an update event never changes the
registry size, in particular an update for an identity never seen is a
no-op; and an add event whose resolution yields no info is ignored, with
no partial record created. -/
theorem registry_final_contents :
    (∀ (evs : List ZEvent) (name : String),
        name ∈ registry_names (run_events listener_init evs) ↔
          present_at_end evs name = true) ∧
    (∀ evs : List ZEvent, (registry_names (run_events listener_init evs)).Nodup) ∧
    (∀ (l : MyListener) (ty name : String) (res : Option ResolvedInfo),
        (update_service l ty name res).services.length = l.services.length) ∧
    (∀ (l : MyListener) (ty name : String), add_service l ty name none = l) := by
  refine ⟨?_, ?_, ?_, ?_⟩
  · intro evs name
    have := run_events_mem_names evs listener_init name listener_inv_init
    simpa [present_at_end, listener_init, registry_names] using this
  · intro evs
    exact (listener_inv_run evs listener_init listener_inv_init).1
  · intro l ty name res
    cases res with
    | none => rfl
    | some info => exact update_first_length l.services name _
  · intro l ty name
    rfl

/-- C8, counterexample: the state `bad_listener` satisfies the invariant
exactly as the spec claims it (no two records share `(name, type)`; the
seen set equals the set of record names), yet after one `update_service`
call for name "n" with type "B" the first matching record's type is
overwritten to "B" and two records share the identity ("n", "B") — the
claimed invariant is not preserved from every state satisfying it. -/
theorem listener_claimed_invariant_cex :
    invariant_claimed bad_listener = true ∧
    invariant_claimed (update_service bad_listener "B" "n" (some info_b)) = false :=
  ⟨rfl, rfl⟩

/-- Pairwise-distinct record names give pairwise-distinct identities. -/
theorem distinct_identities_of_nodup (ss : List ServiceInfo)
    (h : (ss.map (fun s => s.name)).Nodup) : distinct_identities ss = true := by
  induction ss with
  | nil => rfl
  | cons s rest ih =>
    simp only [List.map_cons, List.nodup_cons, List.mem_map] at h
    simp only [distinct_identities, Bool.and_eq_true, List.all_eq_true]
    refine ⟨?_, ih h.2⟩
    intro t ht
    have : ¬ s.name = t.name := fun he => h.1 ⟨t, ht, he.symm⟩
    simp [this]

/-- The strengthened invariant implies the invariant as the spec claims it. -/
theorem invariant_claimed_of_inv (l : MyListener) (h : listener_inv l) :
    invariant_claimed l = true := by
  obtain ⟨hnd, hseen, hnames⟩ := h
  simp only [invariant_claimed, Bool.and_eq_true, List.all_eq_true]
  refine ⟨⟨distinct_identities_of_nodup l.services hnd, ?_⟩, ?_⟩
  · intro n hn
    simpa using hseen n hn
  · intro n hn
    simpa using hnames n hn

/-- C8, amended: after every `add_service`, `update_service` or
`remove_service` call, starting from any registry state satisfying the
strengthened invariant — no two records share their name value, and the
seen set is exactly the set of record names — the strengthened invariant
still holds, and with it the claimed one: no two records share their
`(name, type)` identity and the seen set equals the set of record names.
The strengthening is necessary: as stated, the claimed invariant admits
states with duplicate names that `update_service` breaks. -/
theorem listener_invariant_preserved (l : MyListener) (ev : ZEvent)
    (h : listener_inv l) :
    listener_inv (step_event l ev) ∧ invariant_claimed (step_event l ev) = true :=
  ⟨listener_inv_step l ev h,
    invariant_claimed_of_inv _ (listener_inv_step l ev h)⟩

/-- Witness for the amended C8 theorem: the empty listener satisfies the
strengthened invariant, and one concrete add event preserves it. -/
theorem listener_invariant_preserved_witness :
    listener_inv listener_init ∧
    (listener_inv (step_event listener_init
        (ZEvent.add "_wled._tcp.local." "wled-a" (some info_b))) ∧
      invariant_claimed (step_event listener_init
        (ZEvent.add "_wled._tcp.local." "wled-a" (some info_b))) = true) :=
  ⟨listener_inv_init,
    listener_invariant_preserved listener_init _ listener_inv_init⟩

/-! ## Helper lemmas about lists and the bookmark store -/

/-- `find?` over an append skips a prefix in which nothing matches. -/
theorem find?_append_none {α : Type} (l1 l2 : List α) (p : α → Bool)
    (h : l1.find? p = none) : (l1 ++ l2).find? p = l2.find? p := by
  induction l1 with
  | nil => rfl
  | cons a rest ih =>
    simp only [List.find?_cons] at h
    cases hp : p a with
    | true => simp [hp] at h
    | false =>
      simp only [hp] at h
      simp only [List.cons_append, List.find?_cons, hp]
      exact ih h

/-- Normal form of a successful `add_bookmark` when the url already has a
`moz_places` row: only a bookmark row is appended. -/
theorem add_bookmark_found (db : PlacesDB) (title url : String)
    (parent_id now : Nat) (p : PlaceRow) (h : find_place db url = some p) :
    add_bookmark db title url parent_id now none =
      (some { id := db.next_bookmark_id, title := title, url := url,
              parent_id := parent_id, dateAdded := now, lastModified := now },
       { db with
           moz_bookmarks := db.moz_bookmarks ++
             [{ id := db.next_bookmark_id, type := 1, fk := some p.id,
                parent := parent_id,
                position := next_position db.moz_bookmarks parent_id,
                title := title, dateAdded := now, lastModified := now }]
           next_bookmark_id := db.next_bookmark_id + 1 }) := by
  simp [add_bookmark, h]

/-- Normal form of a successful `add_bookmark` when the url is new: one URL
row and one bookmark row are appended. -/
theorem add_bookmark_fresh (db : PlacesDB) (title url : String)
    (parent_id now : Nat) (h : find_place db url = none) :
    add_bookmark db title url parent_id now none =
      (some { id := db.next_bookmark_id, title := title, url := url,
              parent_id := parent_id, dateAdded := now, lastModified := now },
       { db with
           moz_places := db.moz_places ++
             [{ id := db.next_place_id, url := url, title := title,
                rev_host := rev_host_of url }]
           next_place_id := db.next_place_id + 1
           moz_bookmarks := db.moz_bookmarks ++
             [{ id := db.next_bookmark_id, type := 1, fk := some db.next_place_id,
                parent := parent_id,
                position := next_position db.moz_bookmarks parent_id,
                title := title, dateAdded := now, lastModified := now }]
           next_bookmark_id := db.next_bookmark_id + 1 }) := by
  simp [add_bookmark, h]

/-- C3: whenever `add_bookmark` fails after beginning its transaction — the
injected `sqlite3.Error` fires at any executed statement, which is exactly
when the call returns `none` — the store it leaves behind is the store it
started from: the bookmark table row count and the URL table row count
(including any URL row inserted within the same transaction) are unchanged,
so no partial state is committed. -/
theorem add_bookmark_rollback (db : PlacesDB) (title url : String)
    (parent_id now : Nat) (fail : Option SqlStep)
    (h : (add_bookmark db title url parent_id now fail).1 = none) :
    (add_bookmark db title url parent_id now fail).2 = db ∧
    (add_bookmark db title url parent_id now fail).2.moz_bookmarks.length =
      db.moz_bookmarks.length ∧
    (add_bookmark db title url parent_id now fail).2.moz_places.length =
      db.moz_places.length := by
  suffices hs : (add_bookmark db title url parent_id now fail).2 = db by
    exact ⟨hs, by rw [hs], by rw [hs]⟩
  cases fail with
  | none =>
    cases hp : find_place db url with
    | some p => rw [add_bookmark_found db title url parent_id now p hp] at h; simp at h
    | none => rw [add_bookmark_fresh db title url parent_id now hp] at h; simp at h
  | some s =>
    cases s with
    | urlLookup => simp [add_bookmark]
    | placeInsert =>
      cases hp : find_place db url with
      | some p =>
        rw [show (add_bookmark db title url parent_id now
            (some SqlStep.placeInsert)).1 = some
            { id := db.next_bookmark_id, title := title, url := url,
              parent_id := parent_id, dateAdded := now, lastModified := now }
          from by simp [add_bookmark, hp]] at h
        simp at h
      | none => simp [add_bookmark, hp]
    | posQuery => simp [add_bookmark]
    | bookmarkInsert => simp [add_bookmark]
    | commit => simp [add_bookmark]

/-- Witness for C3: a failure injected at the bookmark-insert statement on
the concrete store `roots_db` returns `none` and leaves the store intact. -/
theorem add_bookmark_rollback_witness :
    (add_bookmark roots_db "wled-a" "http://192.168.1.10:80" 1 50
        (some SqlStep.bookmarkInsert)).1 = none ∧
    (add_bookmark roots_db "wled-a" "http://192.168.1.10:80" 1 50
        (some SqlStep.bookmarkInsert)).2 = roots_db :=
  ⟨by decide,
    (add_bookmark_rollback roots_db "wled-a" "http://192.168.1.10:80" 1 50
      (some SqlStep.bookmarkInsert) (by decide)).1⟩

/-- C4: for every parent folder and url, a successful `add_bookmark` (i)
reuses the id of an existing `moz_places` row for the url and leaves the
URL table unchanged, (ii) otherwise inserts exactly one new URL row, (iii)
appends a bookmark row whose `fk` is the resolved URL row id and whose
position is one past the maximum position among rows with that parent (0 if
there are none), and (iv) under a parent with no children, two successive
calls with the same url and different titles leave the URL table row count
unchanged on the second call, assign positions 0 then 1, and grow the
bookmark table by two rows. -/
theorem add_bookmark_url_reuse_positions (db : PlacesDB) (title url : String)
    (parent_id now : Nat) :
    (∀ p : PlaceRow, find_place db url = some p →
        (add_bookmark db title url parent_id now none).2.moz_places = db.moz_places ∧
        resolved_place_id db url = p.id) ∧
    (find_place db url = none →
        (add_bookmark db title url parent_id now none).2.moz_places =
          db.moz_places ++ [{ id := db.next_place_id, url := url, title := title,
                              rev_host := rev_host_of url }]) ∧
    ((add_bookmark db title url parent_id now none).2.moz_bookmarks.getLast? =
        some { id := db.next_bookmark_id, type := 1,
               fk := some (resolved_place_id db url), parent := parent_id,
               position := next_position db.moz_bookmarks parent_id,
               title := title, dateAdded := now, lastModified := now }) ∧
    (∀ (title2 : String) (now2 : Nat),
        db.moz_bookmarks.filter (fun b => b.parent == parent_id) = [] →
        next_position db.moz_bookmarks parent_id = 0 ∧
        next_position
          (add_bookmark db title url parent_id now none).2.moz_bookmarks parent_id = 1 ∧
        (add_bookmark (add_bookmark db title url parent_id now none).2
            title2 url parent_id now2 none).2.moz_places.length =
          (add_bookmark db title url parent_id now none).2.moz_places.length ∧
        (add_bookmark (add_bookmark db title url parent_id now none).2
            title2 url parent_id now2 none).2.moz_bookmarks.length =
          db.moz_bookmarks.length + 2) := by
  refine ⟨?_, ?_, ?_, ?_⟩
  · intro p hp
    rw [add_bookmark_found db title url parent_id now p hp]
    exact ⟨rfl, by simp [resolved_place_id, hp]⟩
  · intro hp
    rw [add_bookmark_fresh db title url parent_id now hp]
  · cases hp : find_place db url with
    | some p =>
      rw [add_bookmark_found db title url parent_id now p hp]
      simp [List.getLast?_concat, resolved_place_id, hp]
    | none =>
      rw [add_bookmark_fresh db title url parent_id now hp]
      simp [List.getLast?_concat, resolved_place_id, hp]
  · intro title2 now2 hempty
    have hpos0 : next_position db.moz_bookmarks parent_id = 0 := by
      simp [next_position, max_position, hempty]
    cases hp : find_place db url with
    | some p =>
      rw [add_bookmark_found db title url parent_id now p hp]
      have hpos1 : next_position
          (db.moz_bookmarks ++
            [{ id := db.next_bookmark_id, type := 1, fk := some p.id,
               parent := parent_id,
               position := next_position db.moz_bookmarks parent_id,
               title := title, dateAdded := now, lastModified := now }]) parent_id = 1 := by
        simp [next_position, max_position, List.filter_append, hempty, hpos0]
      have hfind2 : find_place
          { db with
              moz_bookmarks := db.moz_bookmarks ++
                [{ id := db.next_bookmark_id, type := 1, fk := some p.id,
                   parent := parent_id,
                   position := next_position db.moz_bookmarks parent_id,
                   title := title, dateAdded := now, lastModified := now }]
              next_bookmark_id := db.next_bookmark_id + 1 } url = some p := hp
      rw [add_bookmark_found _ title2 url parent_id now2 p hfind2]
      refine ⟨hpos0, hpos1, rfl, ?_⟩
      simp
    | none =>
      rw [add_bookmark_fresh db title url parent_id now hp]
      have hpos1 : next_position
          (db.moz_bookmarks ++
            [{ id := db.next_bookmark_id, type := 1, fk := some db.next_place_id,
               parent := parent_id,
               position := next_position db.moz_bookmarks parent_id,
               title := title, dateAdded := now, lastModified := now }]) parent_id = 1 := by
        simp [next_position, max_position, List.filter_append, hempty, hpos0]
      have hfind2 : find_place
          { db with
              moz_places := db.moz_places ++
                [{ id := db.next_place_id, url := url, title := title,
                   rev_host := rev_host_of url }]
              next_place_id := db.next_place_id + 1
              moz_bookmarks := db.moz_bookmarks ++
                [{ id := db.next_bookmark_id, type := 1, fk := some db.next_place_id,
                   parent := parent_id,
                   position := next_position db.moz_bookmarks parent_id,
                   title := title, dateAdded := now, lastModified := now }]
              next_bookmark_id := db.next_bookmark_id + 1 } url =
          some { id := db.next_place_id, url := url, title := title,
                 rev_host := rev_host_of url } := by
        show (db.moz_places ++ [_]).find? _ = _
        rw [find?_append_none _ _ _ hp]
        simp [List.find?]
      rw [add_bookmark_found _ title2 url parent_id now2 _ hfind2]
      refine ⟨hpos0, hpos1, rfl, ?_⟩
      simp

/-- Witness for C4: URL reuse on the concrete store `url_db`, and the
two-call scenario with positions 0 then 1 on the concrete store `roots_db`. -/
theorem add_bookmark_url_reuse_positions_witness :
    ((add_bookmark url_db "wled-b" "http://192.168.1.10:80" 1 60 none).2.moz_places =
        url_db.moz_places ∧
      resolved_place_id url_db "http://192.168.1.10:80" =
        (⟨5, "http://192.168.1.10:80", "t", "192.168.1.10:80"⟩ : PlaceRow).id) ∧
    (next_position roots_db.moz_bookmarks 1 = 0 ∧
      next_position
        (add_bookmark roots_db "wled-a" "http://192.168.1.10:80" 1 50
          none).2.moz_bookmarks 1 = 1 ∧
      (add_bookmark
          (add_bookmark roots_db "wled-a" "http://192.168.1.10:80" 1 50 none).2
          "wled-b" "http://192.168.1.10:80" 1 60 none).2.moz_places.length =
        (add_bookmark roots_db "wled-a" "http://192.168.1.10:80" 1 50
          none).2.moz_places.length ∧
      (add_bookmark
          (add_bookmark roots_db "wled-a" "http://192.168.1.10:80" 1 50 none).2
          "wled-b" "http://192.168.1.10:80" 1 60 none).2.moz_bookmarks.length =
        roots_db.moz_bookmarks.length + 2) :=
  ⟨(add_bookmark_url_reuse_positions url_db "wled-b" "http://192.168.1.10:80" 1 60).1
      ⟨5, "http://192.168.1.10:80", "t", "192.168.1.10:80"⟩ (by decide),
    (add_bookmark_url_reuse_positions roots_db "wled-a" "http://192.168.1.10:80"
        1 50).2.2.2 "wled-b" 60 (by decide)⟩

/-! ## Theorems about restore and backup -/

/-- Closed form of one restore step: the bookmark rows with the entry's id
are removed and the removal count grows by the number of removed rows; a
missing row makes the step the identity. -/
theorem restore_entry_eq (n : Nat) (db : PlacesDB) (e : LedgerEntry) :
    restore_entry (n, db) e =
      (n + (db.moz_bookmarks.length -
          (db.moz_bookmarks.filter (fun b => !(b.id == e.id))).length),
       { db with moz_bookmarks := db.moz_bookmarks.filter (fun b => !(b.id == e.id)) }) := by
  unfold restore_entry
  dsimp only
  by_cases h : (db.moz_bookmarks.filter (fun b => !(b.id == e.id))).length =
      db.moz_bookmarks.length
  · rw [if_pos h]
    have hself : db.moz_bookmarks.filter (fun b => !(b.id == e.id)) =
        db.moz_bookmarks := (List.filter_sublist _).eq_of_length h
    simp [hself]
  · rw [if_neg h]

/-- Closed form of processing a whole ledger: the bookmark table keeps
exactly the rows recorded by no ledger entry, every other table is
untouched, and the count is the number of rows removed. -/
theorem restore_fold (entries : List LedgerEntry) :
    ∀ (n : Nat) (db : PlacesDB),
      entries.foldl restore_entry (n, db) =
        (n + (db.moz_bookmarks.length -
            (db.moz_bookmarks.filter
              (fun b => entries.all (fun e => !(b.id == e.id)))).length),
         { db with
             moz_bookmarks := db.moz_bookmarks.filter
               (fun b => entries.all (fun e => !(b.id == e.id))) }) := by
  induction entries with
  | nil =>
    intro n db
    simp only [List.foldl_nil, List.all_nil, List.filter_true, Nat.sub_self,
      Nat.add_zero]
  | cons e rest ih =>
    intro n db
    have hff : (db.moz_bookmarks.filter (fun b => !(b.id == e.id))).filter
          (fun b => rest.all (fun e2 => !(b.id == e2.id))) =
        db.moz_bookmarks.filter
          (fun b => (e :: rest).all (fun e2 => !(b.id == e2.id))) := by
      rw [List.filter_filter]
      apply List.filter_congr
      intro b _
      simp [List.all_cons, Bool.and_comm]
    have h1 : (db.moz_bookmarks.filter (fun b => !(b.id == e.id))).length ≤
        db.moz_bookmarks.length := List.length_filter_le _ _
    have h2 : (db.moz_bookmarks.filter
          (fun b => (e :: rest).all (fun e2 => !(b.id == e2.id)))).length ≤
        (db.moz_bookmarks.filter (fun b => !(b.id == e.id))).length := by
      rw [← hff]
      exact List.length_filter_le _ _
    simp only [List.foldl_cons]
    rw [restore_entry_eq, ih]
    dsimp only
    rw [hff]
    simp only [Prod.mk.injEq]
    exact ⟨by omega, trivial⟩

/-- C1: when no ledger file exists, restore is a no-op (count 0, store
untouched, never destructive); with a ledger, restore deletes exactly the
bookmark rows recorded in the ledger, never touches the shared URL table,
and returns the number of rows removed; an entry whose bookmark row is no
longer present is skipped without error (the step is the identity). -/
theorem restore_ledger_correct :
    (∀ db : PlacesDB, restore none db = (0, db)) ∧
    (∀ (entries : List LedgerEntry) (db : PlacesDB),
        (restore (some entries) db).2.moz_places = db.moz_places ∧
        (restore (some entries) db).2.moz_bookmarks =
          db.moz_bookmarks.filter (fun b => entries.all (fun e => !(b.id == e.id))) ∧
        (restore (some entries) db).1 =
          db.moz_bookmarks.length - (restore (some entries) db).2.moz_bookmarks.length) ∧
    (∀ (st : Nat × PlacesDB) (e : LedgerEntry),
        st.2.moz_bookmarks.all (fun b => !(b.id == e.id)) = true →
        restore_entry st e = st) := by
  refine ⟨fun db => rfl, ?_, ?_⟩
  · intro entries db
    have hr : restore (some entries) db =
        (0 + (db.moz_bookmarks.length -
            (db.moz_bookmarks.filter
              (fun b => entries.all (fun e => !(b.id == e.id)))).length),
         { db with
             moz_bookmarks := db.moz_bookmarks.filter
               (fun b => entries.all (fun e => !(b.id == e.id))) }) :=
      restore_fold entries 0 db
    rw [hr]
    refine ⟨rfl, rfl, ?_⟩
    dsimp only
    omega
  · intro st e h
    obtain ⟨n, db⟩ := st
    have hall : ∀ b ∈ db.moz_bookmarks, (!(b.id == e.id)) = true :=
      List.all_eq_true.mp h
    have hself : db.moz_bookmarks.filter (fun b => !(b.id == e.id)) =
        db.moz_bookmarks := List.filter_eq_self.mpr hall
    rw [restore_entry_eq, hself]
    simp

/-- Witness for C1: a missing ledger is a no-op on `roots_db`; the ledger
`demo_ledger` leaves the URL table of `ledger_db` untouched; and an entry
for the already-absent bookmark id 9 is skipped without change. -/
theorem restore_ledger_correct_witness :
    restore none roots_db = (0, roots_db) ∧
    (restore (some demo_ledger) ledger_db).2.moz_places = ledger_db.moz_places ∧
    restore_entry (0, roots_db) { id := 9, url := "http://x" } = (0, roots_db) :=
  ⟨restore_ledger_correct.1 roots_db,
    (restore_ledger_correct.2.1 demo_ledger ledger_db).1,
    restore_ledger_correct.2.2 (0, roots_db) { id := 9, url := "http://x" } (by decide)⟩

/-- C9: `backup_places_db` creates the backup at most once: when a file
already exists at the conventional backup path, the call returns the
filesystem completely untouched (content and timestamps of every file,
including the existing backup, unchanged — no write at all); when no backup
exists and the store file is present, it creates exactly one new file at
the backup path holding a byte-identical copy of the store, timestamp
included. -/
theorem backup_places_db_once (fs : FS) (places_db_path : String) :
    (os_path_exists fs (backup_path_of places_db_path) = true →
        backup_places_db fs places_db_path = Except.ok fs) ∧
    (os_path_exists fs (backup_path_of places_db_path) = false →
        ∀ fd : FileData, fs_lookup fs places_db_path = some fd →
          backup_places_db fs places_db_path =
            Except.ok (fs ++ [(backup_path_of places_db_path, fd)]) ∧
          fs_lookup (fs ++ [(backup_path_of places_db_path, fd)])
              (backup_path_of places_db_path) = some fd) := by
  constructor
  · intro h
    simp [backup_places_db, h]
  · intro h fd hfd
    have hnone : fs.find? (fun e => e.1 == backup_path_of places_db_path) = none := by
      simp only [os_path_exists, fs_lookup] at h
      cases hcase : fs.find? (fun e => e.1 == backup_path_of places_db_path) with
      | none => rfl
      | some x => rw [hcase] at h; simp at h
    constructor
    · simp [backup_places_db, h, shutil_copy2, hfd]
    · show ((fs ++ [(backup_path_of places_db_path, fd)]).find? _).map _ = _
      rw [find?_append_none _ _ _ hnone]
      simp [List.find?]

/-- Witness for C9: with an existing backup the concrete filesystem is
returned untouched; on the first run the backup appears as a byte-identical
copy of the store file. -/
theorem backup_places_db_once_witness :
    (os_path_exists fs_with_backup (backup_path_of "home/places.sqlite") = true ∧
      backup_places_db fs_with_backup "home/places.sqlite" = Except.ok fs_with_backup) ∧
    (os_path_exists fs_no_backup (backup_path_of "home/places.sqlite") = false ∧
      backup_places_db fs_no_backup "home/places.sqlite" =
        Except.ok (fs_no_backup ++ [(backup_path_of "home/places.sqlite",
          { bytes := [1, 2, 3], mtime := 10 })])) :=
  ⟨⟨by decide,
      (backup_places_db_once fs_with_backup "home/places.sqlite").1 (by decide)⟩,
   ⟨by decide,
      ((backup_places_db_once fs_no_backup "home/places.sqlite").2 (by decide)
        { bytes := [1, 2, 3], mtime := 10 } (by decide)).1⟩⟩
